import Mathlib

/-!
Verification of the coreum fungible-token keeper, DEX good-til scheduler and
fee model against their natural-language specification.

The Go keeper functions of `x/asset/ft/keeper/keeper.go` and the fee-model
keeper are translated into executable Lean definitions over an explicit state
record.  Helper functions living in packages that are not part of the sampled
sources (the `types` packages, the wasm and IBC-purpose context flags, the
bank collaborator) are modelled from the specification and marked as such in
their doc comments.
-/

/-- Token features, from the feature set of the spec
{minting, burning, freezing, whitelisting, ibc, block_smart_contracts,
clawback, extension}. -/
inductive Feature where
  | minting
  | burning
  | freezing
  | whitelisting
  | ibc
  | blockSmartContracts
  | clawback
  | extension
deriving DecidableEq

/-- Error categories surfaced by the keeper (spec section 7). -/
inductive Err where
  | invalidInput
  | invalidDenom
  | tokenNotFound
  | unauthorized
  | featureDisabled
  | insufficientFunds
  | whitelistedLimitExceeded
  | globallyFrozen
  | invalidCoins
  | invalidRequest
  | invalidState
  | notFound
deriving DecidableEq

deriving instance DecidableEq for Except

/-- A token definition (`types.Definition`), keyed by denom. -/
structure Definition where
  denom : String
  issuer : String
  admin : String
  features : List Feature
  burnRate : Rat
  sendCommissionRate : Rat
  version : Nat
  uri : String
  uriHash : String
  extensionCWAddress : String
deriving DecidableEq

/-- Modelled from the spec: `is_feature_enabled(def, feature)` of the missing
`x/asset/ft/types` package: the feature belongs to the feature
set of the definition. -/
def Definition.IsFeatureEnabled (d : Definition) (f : Feature) : Bool :=
  decide (f ∈ d.features)

/-- Modelled from the spec: `is_admin(def, actor)` of the missing
`x/asset/ft/types` package: the actor equals the stored admin. -/
def Definition.IsAdmin (d : Definition) (addr : String) : Bool :=
  decide (d.admin = addr)

/-- Modelled from the spec: `has_admin_privileges(def, actor)` of the missing
`x/asset/ft/types` package, "true iff admin set and equal". -/
def Definition.HasAdminPrivileges (d : Definition) (addr : String) : Bool :=
  decide (d.admin ≠ "" ∧ d.admin = addr)

/-- Modelled from the spec: the features whose operations the spec reserves to
the admin (freeze, globally-freeze, set-whitelisted, clawback, mint). -/
def adminOnlyFeatures : List Feature :=
  [Feature.minting, Feature.freezing, Feature.whitelisting, Feature.clawback]

/-- Modelled from the spec: `check_feature_allowed(def, actor, feature)` of
the missing `x/asset/ft/types` package: `FeatureDisabled` if the feature is
not enabled; `Unauthorized` if the feature is admin-only and the actor is not
admin. -/
def Definition.CheckFeatureAllowed (d : Definition) (addr : String) (f : Feature) :
    Except Err Unit :=
  if !(d.IsFeatureEnabled f) then Except.error Err.featureDisabled
  else if decide (f ∈ adminOnlyFeatures) && !(d.HasAdminPrivileges addr) then
    Except.error Err.unauthorized
  else Except.ok ()

/-- The IBC transfer purpose attached to the execution context
(spec section 9: none, ibc-out, ibc-in, ack, timeout). -/
inductive TransferPurpose where
  | none
  | ibcOut
  | ibcIn
  | ack
  | timeout
deriving DecidableEq

/-- Modelled from the spec: the execution-context flags consulted by the
transfer validator, replacing the missing `wibctransfertypes` purpose flags
and the `cwasmtypes` smart-contract flags. -/
structure TransferCtx where
  purpose : TransferPurpose
  triggeredBySmartContract : Bool
  smartContractRecipients : List String
deriving DecidableEq

/-- Modelled from the spec: `cwasmtypes.IsReceivingSmartContract`. -/
def IsReceivingSmartContract (ctx : TransferCtx) (addr : String) : Bool :=
  decide (addr ∈ ctx.smartContractRecipients)

/-- Modelled from the spec: `cwasmtypes.WithSmartContractRecipient`. -/
def WithSmartContractRecipient (ctx : TransferCtx) (addr : String) : TransferCtx :=
  { ctx with smartContractRecipients := addr :: ctx.smartContractRecipients }

/-- A coin: a denom together with an integer amount. -/
structure Coin where
  denom : String
  amount : Int
deriving DecidableEq

/-- The keeper state: the module KV store together with the bank collaborator
balances the keeper reads (spec section 3 balance stores).  Token definitions
are keyed by `(issuer, subunit)` exactly like `types.CreateTokenKey`. -/
structure FTState where
  definitions : String → String → Option Definition
  symbols : String → String → Bool
  denomMetadata : String → Bool
  dexSettings : String → Bool
  globalFreeze : String → Bool
  frozen : String → String → Int
  whitelisted : String → String → Int
  bank : String → String → Int
  supply : String → Int
  bankLocked : String → String → Int
  dexLocked : String → String → Int
  dexExpected : String → String → Int
  smartContracts : String → Bool
  bondDenom : String
  issueFee : Coin

/-- Point update of a one-key map. -/
def update1 {α : Type} (f : String → α) (k : String) (v : α) : String → α :=
  fun x => if x = k then v else f x

/-- Point update of a two-key map. -/
def update2 {α : Type} (f : String → String → α) (k₁ k₂ : String) (v : α) :
    String → String → α :=
  fun x y => if x = k₁ ∧ y = k₂ then v else f x y

/-- Split a character list at the first dash. -/
def splitDash : List Char → Option (List Char × List Char)
  | [] => Option.none
  | c :: rest =>
    if c = '-' then some ([], rest)
    else
      match splitDash rest with
      | Option.none => Option.none
      | some (l, r) => some (c :: l, r)

/-- Modelled from the spec: `types.DeconstructDenom`; a denom of the form
`<subunit>-<issuer>` with nonempty parts and a single dash yields the pair,
anything else an error. -/
def deconstructDenom (denom : String) : Option (String × String) :=
  match splitDash denom.toList with
  | Option.none => Option.none
  | some (su, iss) =>
    if su.isEmpty || iss.isEmpty || iss.contains '-' then Option.none
    else some (String.mk su, String.mk iss)

/-- Modelled from the spec: `types.BuildDenom`. -/
def BuildDenom (subunit issuer : String) : String :=
  subunit ++ "-" ++ issuer

/-- Embeds `Keeper.GetDefinition`: deconstruct the denom and look the definition up
under the `(issuer, subunit)` token key. -/
def GetDefinition (s : FTState) (denom : String) : Except Err Definition :=
  match deconstructDenom denom with
  | Option.none => Except.error Err.invalidDenom
  | some (subunit, issuer) =>
    match s.definitions issuer subunit with
    | Option.none => Except.error Err.tokenNotFound
    | some d => Except.ok d

/-- Embeds `Keeper.getDefinitionOrNil`: the definition, or `none` when the denom is
invalid or the token is not found. -/
def getDefinitionOrNil (s : FTState) (denom : String) : Option Definition :=
  match GetDefinition s denom with
  | Except.error _ => Option.none
  | Except.ok d => some d

/-- Embeds `Keeper.SetDefinition`: store the definition under the token key. -/
def SetDefinition (s : FTState) (issuer subunit : String) (d : Definition) : FTState :=
  { s with definitions := fun i su =>
      if i = issuer ∧ su = subunit then some d else s.definitions i su }

/-- Embeds `Keeper.isGloballyFrozen`: the global-freeze key is set for the denom. -/
def isGloballyFrozen (s : FTState) (denom : String) : Bool :=
  s.globalFreeze denom

/-- Embeds `Keeper.GetFrozenBalance`: zero for an account with admin privileges, the
full bank balance under global freeze, otherwise the frozen store balance. -/
def GetFrozenBalance (s : FTState) (addr denom : String) : Int :=
  match getDefinitionOrNil s denom with
  | some d =>
    if d.HasAdminPrivileges addr then 0
    else if isGloballyFrozen s denom then s.bank addr denom
    else s.frozen addr denom
  | Option.none =>
    if isGloballyFrozen s denom then s.bank addr denom
    else s.frozen addr denom

/-- Modelled from the spec: `validateCoinIsNotLockedByDEXAndBank` of the
missing DEX-lock file, spec rule 5 of validate_spendable:
`amount ≤ bank − dex_locked − bank_locked`, else `InsufficientFunds`. -/
def validateCoinIsNotLockedByDEXAndBank (s : FTState) (addr denom : String)
    (amount : Int) : Except Err Unit :=
  if s.bank addr denom - s.dexLocked addr denom - s.bankLocked addr denom < amount then
    Except.error Err.insufficientFunds
  else Except.ok ()

/-- Embeds `Keeper.validateCoinSpendable`, transcribed check for check from
`keeper.go`. -/
def validateCoinSpendable (ctx : TransferCtx) (s : FTState) (addr : String)
    (d : Definition) (amount : Int) : Except Err Unit :=
  if ctx.purpose = TransferPurpose.ack then Except.ok ()
  else if ctx.purpose = TransferPurpose.timeout then Except.ok ()
  else if d.IsFeatureEnabled Feature.freezing && isGloballyFrozen s d.denom
      && !(d.HasAdminPrivileges addr) then
    Except.error Err.globallyFrozen
  else if ctx.purpose = TransferPurpose.ibcIn then Except.ok ()
  else if d.IsFeatureEnabled Feature.blockSmartContracts
      && !(d.HasAdminPrivileges addr) && ctx.triggeredBySmartContract then
    Except.error Err.unauthorized
  else
    match validateCoinIsNotLockedByDEXAndBank s addr d.denom amount with
    | Except.error e => Except.error e
    | Except.ok () =>
      if d.IsFeatureEnabled Feature.freezing && !(d.HasAdminPrivileges addr) then
        let frozenAmt := GetFrozenBalance s addr d.denom
        let balance := s.bank addr d.denom
        if balance - frozenAmt < amount then Except.error Err.insufficientFunds
        else Except.ok ()
      else Except.ok ()

/-- Embeds `Keeper.validateWhitelistedBalance`: the whitelisted cap minus the bank
balance minus the DEX expected-to-receive balance must cover the amount. -/
def validateWhitelistedBalance (s : FTState) (addr denom : String) (amount : Int) :
    Except Err Unit :=
  let availableToReceive :=
    s.whitelisted addr denom - s.bank addr denom - s.dexExpected addr denom
  if availableToReceive < amount then Except.error Err.whitelistedLimitExceeded
  else Except.ok ()

/-- Embeds `Keeper.validateCoinReceivable`, transcribed check for check from
`keeper.go`. -/
def validateCoinReceivable (ctx : TransferCtx) (s : FTState) (addr : String)
    (d : Definition) (amount : Int) : Except Err Unit :=
  if ctx.purpose = TransferPurpose.ibcOut then
    if !(d.IsFeatureEnabled Feature.ibc) then Except.error Err.unauthorized
    else Except.ok ()
  else if ctx.purpose = TransferPurpose.ack then Except.ok ()
  else if ctx.purpose = TransferPurpose.timeout then Except.ok ()
  else
    match
      (if d.IsFeatureEnabled Feature.whitelisting && !(d.HasAdminPrivileges addr) then
        validateWhitelistedBalance s addr d.denom amount
      else Except.ok ()) with
    | Except.error e => Except.error e
    | Except.ok () =>
      if d.IsFeatureEnabled Feature.blockSmartContracts
          && !(d.HasAdminPrivileges addr) && IsReceivingSmartContract ctx addr then
        Except.error Err.unauthorized
      else Except.ok ()

/-- A concrete definition with the freezing feature enabled, used by
witnesses. -/
def witnessFrozenDef : Definition :=
  { denom := "sub-cosmos1issuer", issuer := "cosmos1issuer",
    admin := "cosmos1issuer", features := [Feature.freezing],
    burnRate := 0, sendCommissionRate := 0, version := 1,
    uri := "", uriHash := "", extensionCWAddress := "" }

/-- A concrete state in which `sub-cosmos1issuer` is globally frozen, used by
witnesses. -/
def witnessFrozenState : FTState :=
  { definitions := fun i su =>
      if i = "cosmos1issuer" ∧ su = "sub" then some witnessFrozenDef else Option.none,
    symbols := fun _ _ => false,
    denomMetadata := fun _ => false,
    dexSettings := fun _ => false,
    globalFreeze := fun denom => denom = "sub-cosmos1issuer",
    frozen := fun _ _ => 0,
    whitelisted := fun _ _ => 0,
    bank := fun _ _ => 100,
    supply := fun _ => 100,
    bankLocked := fun _ _ => 0,
    dexLocked := fun _ _ => 0,
    dexExpected := fun _ _ => 0,
    smartContracts := fun _ => false,
    bondDenom := "ucore",
    issueFee := { denom := "ucore", amount := 0 } }

/-- A concrete definition with the whitelisting and block-smart-contracts
features, used by the counterexample to C2. -/
def witnessWLDef : Definition :=
  { denom := "wl-cosmos1issuer", issuer := "cosmos1issuer",
    admin := "cosmos1issuer",
    features := [Feature.whitelisting, Feature.blockSmartContracts],
    burnRate := 0, sendCommissionRate := 0, version := 1,
    uri := "", uriHash := "", extensionCWAddress := "" }

/-- A concrete state in which `cosmos1bob` has whitelisted cap 10 and empty
balances for `wl-cosmos1issuer`. -/
def witnessWLState : FTState :=
  { definitions := fun i su =>
      if i = "cosmos1issuer" ∧ su = "wl" then some witnessWLDef else Option.none,
    symbols := fun _ _ => false,
    denomMetadata := fun _ => false,
    dexSettings := fun _ => false,
    globalFreeze := fun _ => false,
    frozen := fun _ _ => 0,
    whitelisted := fun _ _ => 10,
    bank := fun _ _ => 0,
    supply := fun _ => 0,
    bankLocked := fun _ _ => 0,
    dexLocked := fun _ _ => 0,
    dexExpected := fun _ _ => 0,
    smartContracts := fun _ => false,
    bondDenom := "ucore",
    issueFee := { denom := "ucore", amount := 0 } }

/-- A transfer context with purpose none in which `cosmos1bob` is a receiving
smart contract. -/
def witnessSCCtx : TransferCtx :=
  { purpose := TransferPurpose.none, triggeredBySmartContract := false,
    smartContractRecipients := ["cosmos1bob"] }

/-- Embeds `Keeper.GetSpendableBalance`: the balance allowed to be spent, clamping
each applicable difference at zero. -/
def GetSpendableBalance (s : FTState) (addr denom : String) : Int :=
  let balance := s.bank addr denom
  if balance = 0 then balance
  else
    let notLockedAmt := balance - s.dexLocked addr denom - s.bankLocked addr denom
    if notLockedAmt < 0 then 0
    else
      match getDefinitionOrNil s denom with
      | some d =>
        if d.IsFeatureEnabled Feature.freezing then
          let frozenBalance := GetFrozenBalance s addr denom
          let notFrozenAmt := balance - frozenBalance
          if notFrozenAmt < 0 then 0
          else min notLockedAmt notFrozenAmt
        else notLockedAmt
      | Option.none => notLockedAmt

/-- Embeds `Keeper.ClearAdmin`: only the admin may clear administration; the admin
field is emptied and, unless the extension feature is enabled, the send
commission rate is zeroed. -/
def ClearAdmin (s : FTState) (sender denom : String) : Except Err FTState :=
  match GetDefinition s denom with
  | Except.error e => Except.error e
  | Except.ok d =>
    if !(d.IsAdmin sender) then Except.error Err.unauthorized
    else
      match deconstructDenom denom with
      | Option.none => Except.error Err.invalidDenom
      | some (subunit, issuer) =>
        Except.ok (SetDefinition s issuer subunit
          { d with
            admin := ""
            sendCommissionRate :=
              if d.IsFeatureEnabled Feature.extension then d.sendCommissionRate
              else 0 })

/-- Embeds `Keeper.SetGlobalFreeze`: set or delete the global-freeze key. -/
def SetGlobalFreeze (s : FTState) (denom : String) (frozen : Bool) : FTState :=
  { s with globalFreeze := update1 s.globalFreeze denom frozen }

/-- Embeds `Keeper.GloballyFreeze`: look up the definition, check the freezing
feature for the sender, then set the global-freeze key. -/
def GloballyFreeze (s : FTState) (sender denom : String) : Except Err FTState :=
  match GetDefinition s denom with
  | Except.error e => Except.error e
  | Except.ok d =>
    match d.CheckFeatureAllowed sender Feature.freezing with
    | Except.error e => Except.error e
    | Except.ok _ => Except.ok (SetGlobalFreeze s denom true)

/-- Embeds `Keeper.GloballyUnfreeze`: look up the definition, check the freezing
feature for the sender, then delete the global-freeze key. -/
def GloballyUnfreeze (s : FTState) (sender denom : String) : Except Err FTState :=
  match GetDefinition s denom with
  | Except.error e => Except.error e
  | Except.ok d =>
    match d.CheckFeatureAllowed sender Feature.freezing with
    | Except.error e => Except.error e
    | Except.ok _ => Except.ok (SetGlobalFreeze s denom false)

/-- The issue message payload (`types.IssueSettings`). -/
structure IssueSettings where
  issuer : String
  symbol : String
  subunit : String
  precision : Nat
  initialAmount : Int
  description : String
  features : List Feature
  burnRate : Rat
  sendCommissionRate : Rat
  uri : String
  uriHash : String
  extensionSettings : Option Unit
  dexSettings : Option Unit

/-- Modelled from the spec: `types.MaxMintableAmount`, the
implementation-defined hard upper bound on every mint and issue amount. -/
def MaxMintableAmount : Int := 10 ^ 77

/-- Modelled from the spec: `types.ValidateSubunit`; a subunit is a nonempty
lowercase identifier. -/
def ValidateSubunit (subunit : String) : Except Err Unit :=
  match subunit.toList with
  | [] => Except.error Err.invalidInput
  | c :: rest =>
    if c.isLower && rest.all (fun x => x.isLower || x.isDigit) then Except.ok ()
    else Except.error Err.invalidInput

/-- Modelled from the spec: `types.ValidatePrecision`; precision is 0-18. -/
def ValidatePrecision (precision : Nat) : Except Err Unit :=
  if precision ≤ 18 then Except.ok () else Except.error Err.invalidInput

/-- Modelled from the spec: `types.ValidateFeatures`; duplicate features are
invalid input. -/
def ValidateFeatures (features : List Feature) : Except Err Unit :=
  if features.Nodup then Except.ok () else Except.error Err.invalidInput

/-- Modelled from the spec: `types.ValidateBurnRate`; a non-negative decimal
at most one. -/
def ValidateBurnRate (rate : Rat) : Except Err Unit :=
  if 0 ≤ rate ∧ rate ≤ 1 then Except.ok () else Except.error Err.invalidInput

/-- Modelled from the spec: `types.ValidateSendCommissionRate`; a
non-negative decimal at most one. -/
def ValidateSendCommissionRate (rate : Rat) : Except Err Unit :=
  if 0 ≤ rate ∧ rate ≤ 1 then Except.ok () else Except.error Err.invalidInput

/-- Modelled from the spec: `types.ValidateSymbol`; a nonempty ASCII
identifier starting with a letter. -/
def ValidateSymbol (symbol : String) : Except Err Unit :=
  match symbol.toList with
  | [] => Except.error Err.invalidInput
  | c :: rest =>
    if c.isAlpha && rest.all (fun x => x.isAlpha || x.isDigit) then Except.ok ()
    else Except.error Err.invalidInput

/-- Modelled from the spec: `types.NormalizeSymbolForKey` lowercases the
symbol before storing it. -/
def NormalizeSymbolForKey (symbol : String) : String :=
  String.mk (symbol.toList.map Char.toLower)

/-- Modelled from the spec: the bank collaborator burn path used by
`Keeper.burn` (send the coins from the account to the module, then burn):
the account balance and the supply decrease; insufficient funds fail. -/
def bankBurn (s : FTState) (addr : String) (c : Coin) : Except Err FTState :=
  if s.bank addr c.denom < c.amount then Except.error Err.insufficientFunds
  else Except.ok { s with
    bank := update2 s.bank addr c.denom (s.bank addr c.denom - c.amount)
    supply := update1 s.supply c.denom (s.supply c.denom - c.amount) }

/-- Embeds `Keeper.checkIssueFeeIsLimitedToCore`: the issue fee denom must be the
staking bond denom. -/
def checkIssueFeeIsLimitedToCore (s : FTState) : Except Err Unit :=
  if s.issueFee.denom ≠ s.bondDenom then Except.error Err.invalidCoins
  else Except.ok ()

/-- Embeds `Keeper.burnIssueFee`: check the fee denom, check that the issuer has unlocked
funds, then burn the fee. -/
def burnIssueFee (s : FTState) (issuer : String) : Except Err FTState :=
  match checkIssueFeeIsLimitedToCore s with
  | Except.error e => Except.error e
  | Except.ok _ =>
    match validateCoinIsNotLockedByDEXAndBank s issuer s.issueFee.denom
        s.issueFee.amount with
    | Except.error e => Except.error e
    | Except.ok _ => bankBurn s issuer s.issueFee

/-- Embeds `Keeper.SetSymbol`: store the normalized symbol for the issuer, rejecting
duplicates with InvalidInput. -/
def SetSymbol (s : FTState) (symbol issuer : String) : Except Err FTState :=
  if s.symbols issuer (NormalizeSymbolForKey symbol) then
    Except.error Err.invalidInput
  else Except.ok { s with
    symbols := update2 s.symbols issuer (NormalizeSymbolForKey symbol) true }

/-- Embeds `Keeper.SetDenomMetadata`: register the denom metadata with the bank. -/
def SetDenomMetadata (s : FTState) (denom : String) : FTState :=
  { s with denomMetadata := update1 s.denomMetadata denom true }

/-- Embeds `Keeper.mintIfReceivable`: nothing happens for a non-positive amount;
otherwise validate the recipient (flagging a smart-contract recipient in the
context) and mint the coins to it. -/
def mintIfReceivable (ctx : TransferCtx) (s : FTState) (d : Definition)
    (amount : Int) (recipient : String) : Except Err FTState :=
  if ¬ 0 < amount then Except.ok s
  else
    match validateCoinReceivable
        (if s.smartContracts recipient then WithSmartContractRecipient ctx recipient
         else ctx) s recipient d amount with
    | Except.error e => Except.error e
    | Except.ok _ => Except.ok { s with
        bank := update2 s.bank recipient d.denom (s.bank recipient d.denom + amount)
        supply := update1 s.supply d.denom (s.supply d.denom + amount) }

/-- Embeds `Keeper.Mint`: the cap check comes first, then the definition lookup, the
minting feature check, and the guarded mint. -/
def Mint (ctx : TransferCtx) (s : FTState) (sender recipient : String)
    (coin : Coin) : Except Err FTState :=
  if MaxMintableAmount < coin.amount then Except.error Err.invalidInput
  else
    match GetDefinition s coin.denom with
    | Except.error e => Except.error e
    | Except.ok d =>
      match d.CheckFeatureAllowed sender Feature.minting with
      | Except.error e => Except.error e
      | Except.ok _ => mintIfReceivable ctx s d coin.amount recipient

/-- Embeds `Keeper.IssueVersioned`, transcribed step for step from `keeper.go`:
validations, the cap check, the metadata duplicate check, the fee burn, the
symbol duplicate check, the initial mint, the extension instantiation
(modelled as assigning a deterministic contract address), the metadata and
definition writes, and the optional DEX settings write. -/
def IssueVersioned (ctx : TransferCtx) (s : FTState) (settings : IssueSettings)
    (version : Nat) : Except Err (String × FTState) :=
  match ValidateSubunit settings.subunit with
  | Except.error e => Except.error e
  | Except.ok _ =>
  match ValidatePrecision settings.precision with
  | Except.error e => Except.error e
  | Except.ok _ =>
  match ValidateFeatures settings.features with
  | Except.error e => Except.error e
  | Except.ok _ =>
  match ValidateBurnRate settings.burnRate with
  | Except.error e => Except.error e
  | Except.ok _ =>
  match ValidateSendCommissionRate settings.sendCommissionRate with
  | Except.error e => Except.error e
  | Except.ok _ =>
  if MaxMintableAmount < settings.initialAmount then Except.error Err.invalidInput
  else
  match ValidateSymbol settings.symbol with
  | Except.error e => Except.error e
  | Except.ok _ =>
  if s.denomMetadata (BuildDenom settings.subunit settings.issuer) then
    Except.error Err.invalidInput
  else
  match (if 0 < s.issueFee.amount then burnIssueFee s settings.issuer
         else Except.ok s) with
  | Except.error e => Except.error e
  | Except.ok s₁ =>
  match SetSymbol s₁ settings.symbol settings.issuer with
  | Except.error e => Except.error e
  | Except.ok s₂ =>
  match mintIfReceivable ctx s₂
      { denom := BuildDenom settings.subunit settings.issuer
        issuer := settings.issuer
        admin := settings.issuer
        features := settings.features
        burnRate := settings.burnRate
        sendCommissionRate := settings.sendCommissionRate
        version := version
        uri := settings.uri
        uriHash := settings.uriHash
        extensionCWAddress := "" } settings.initialAmount settings.issuer with
  | Except.error e => Except.error e
  | Except.ok s₃ =>
  match (if decide (Feature.extension ∈ settings.features) then
           match settings.extensionSettings with
           | Option.none => Except.error Err.invalidInput
           | some _ => Except.ok ("ext-" ++ BuildDenom settings.subunit settings.issuer)
         else Except.ok "") with
  | Except.error e => Except.error e
  | Except.ok extAddr =>
  Except.ok (BuildDenom settings.subunit settings.issuer,
    (fun s₅ =>
      if settings.dexSettings.isSome then
        { s₅ with dexSettings :=
            update1 s₅.dexSettings (BuildDenom settings.subunit settings.issuer) true }
      else s₅)
    (SetDefinition (SetDenomMetadata s₃ (BuildDenom settings.subunit settings.issuer))
      settings.issuer settings.subunit
      { denom := BuildDenom settings.subunit settings.issuer
        issuer := settings.issuer
        admin := settings.issuer
        features := settings.features
        burnRate := settings.burnRate
        sendCommissionRate := settings.sendCommissionRate
        version := version
        uri := settings.uri
        uriHash := settings.uriHash
        extensionCWAddress := extAddr }))

/-- A plain transfer context: purpose none and no smart-contract flags. -/
def witnessPlainCtx : TransferCtx :=
  { purpose := TransferPurpose.none, triggeredBySmartContract := false,
    smartContractRecipients := [] }

/-- Issue settings whose initial amount exceeds the mintable cap. -/
def witnessIssueSettingsBig : IssueSettings :=
  { issuer := "cosmos1issuer", symbol := "TOK", subunit := "tok", precision := 6,
    initialAmount := MaxMintableAmount + 1, description := "", features := [],
    burnRate := 0, sendCommissionRate := 0, uri := "", uriHash := "",
    extensionSettings := Option.none, dexSettings := Option.none }

/-- Valid issue settings with a small initial amount. -/
def witnessIssueSettingsOK : IssueSettings :=
  { issuer := "cosmos1issuer", symbol := "TOK", subunit := "tok", precision := 6,
    initialAmount := 1000, description := "", features := [],
    burnRate := 0, sendCommissionRate := 0, uri := "", uriHash := "",
    extensionSettings := Option.none, dexSettings := Option.none }

/-- A state in which denom metadata for `tok-cosmos1issuer` already exists. -/
def witnessIssueStateA : FTState :=
  { witnessWLState with denomMetadata := fun d => d = "tok-cosmos1issuer" }

/-- A state in which the normalized symbol `tok` is already stored for the
issuer. -/
def witnessIssueStateB : FTState :=
  { witnessWLState with symbols := fun i k => i = "cosmos1issuer" ∧ k = "tok" }

/-- Fee model parameters (`types.ModelParams`). -/
structure FeeModelParams where
  shortEmaBlockLength : Nat
  longEmaBlockLength : Nat
  maxBlockGas : Int

/-- Fee model keeper state: stored params and the two EMAs. -/
structure FeeModelState where
  params : FeeModelParams
  shortEMAGas : Int
  longEMAGas : Int

/-- The running accumulator of the edge-price loop, named after the local
variables of `CalculateEdgeGasPriceAfterBlocks`. -/
structure EdgeAcc where
  maxShortEMA : Int
  maxLongEMA : Int
  minShortEMA : Int
  minLongEMA : Int
  lowMinGasPrice : Rat
  highMinGasPrice : Rat

/-- One iteration of the `CalculateEdgeGasPriceAfterBlocks` loop: advance the
max-load EMAs with `maxBlockGas` and the min-load EMAs with zero gas, price
both, and fold them into the running low and high.  The EMA update `ema` and
the model curve `price` live in the feemodel `types` package outside the
sampled sources, so the development is parametric in them. -/
def edgeStep (ema : Int → Int → Nat → Int) (price : Int → Int → Rat)
    (p : FeeModelParams) (acc : EdgeAcc) : EdgeAcc :=
  { maxShortEMA := ema acc.maxShortEMA p.maxBlockGas p.shortEmaBlockLength
    maxLongEMA := ema acc.maxLongEMA p.maxBlockGas p.longEmaBlockLength
    minShortEMA := ema acc.minShortEMA 0 p.shortEmaBlockLength
    minLongEMA := ema acc.minLongEMA 0 p.longEmaBlockLength
    lowMinGasPrice :=
      min acc.lowMinGasPrice
        (min (price (ema acc.maxShortEMA p.maxBlockGas p.shortEmaBlockLength)
            (ema acc.maxLongEMA p.maxBlockGas p.longEmaBlockLength))
          (price (ema acc.minShortEMA 0 p.shortEmaBlockLength)
            (ema acc.minLongEMA 0 p.longEmaBlockLength)))
    highMinGasPrice :=
      max acc.highMinGasPrice
        (max (price (ema acc.maxShortEMA p.maxBlockGas p.shortEmaBlockLength)
            (ema acc.maxLongEMA p.maxBlockGas p.longEmaBlockLength))
          (price (ema acc.minShortEMA 0 p.shortEmaBlockLength)
            (ema acc.minLongEMA 0 p.longEmaBlockLength))) }

/-- The edge-price loop run for a given number of blocks. -/
def edgeIter (ema : Int → Int → Nat → Int) (price : Int → Int → Rat)
    (p : FeeModelParams) : Nat → EdgeAcc → EdgeAcc
  | 0, acc => acc
  | Nat.succ n, acc => edgeIter ema price p n (edgeStep ema price p acc)

/-- The per-block candidate gas prices of the two extreme trajectories: each
iteration contributes the max-load price and the min-load price. -/
def edgeCandidates (ema : Int → Int → Nat → Int) (price : Int → Int → Rat)
    (p : FeeModelParams) : Nat → EdgeAcc → List Rat
  | 0, _ => []
  | Nat.succ n, acc =>
    price (ema acc.maxShortEMA p.maxBlockGas p.shortEmaBlockLength)
        (ema acc.maxLongEMA p.maxBlockGas p.longEmaBlockLength)
      :: price (ema acc.minShortEMA 0 p.shortEmaBlockLength)
        (ema acc.minLongEMA 0 p.longEmaBlockLength)
      :: edgeCandidates ema price p n (edgeStep ema price p acc)

/-- The loop accumulator before the first iteration: both trajectories start
at the stored EMAs and low and high start at the current model price. -/
def initialEdgeAcc (price : Int → Int → Rat) (st : FeeModelState) : EdgeAcc :=
  { maxShortEMA := st.shortEMAGas
    maxLongEMA := st.longEMAGas
    minShortEMA := st.shortEMAGas
    minLongEMA := st.longEMAGas
    lowMinGasPrice := price st.shortEMAGas st.longEMAGas
    highMinGasPrice := price st.shortEMAGas st.longEMAGas }

/-- Embeds `Keeper.CalculateEdgeGasPriceAfterBlocks`: reject `after` beyond the
short EMA block length, default `after = 0` to that length, and fold the
edge-price loop. -/
def CalculateEdgeGasPriceAfterBlocks (ema : Int → Int → Nat → Int)
    (price : Int → Int → Rat) (st : FeeModelState) (after : Nat) :
    Except Err (Rat × Rat) :=
  if st.params.shortEmaBlockLength < after then Except.error Err.invalidRequest
  else
    Except.ok
      ((edgeIter ema price st.params
          (if after = 0 then st.params.shortEmaBlockLength else after)
          (initialEdgeAcc price st)).lowMinGasPrice,
        (edgeIter ema price st.params
          (if after = 0 then st.params.shortEmaBlockLength else after)
          (initialEdgeAcc price st)).highMinGasPrice)

/-- The full candidate set of the query: the current model price followed by
the per-block candidates of the effective number of blocks. -/
def edgeCandidateList (ema : Int → Int → Nat → Int) (price : Int → Int → Rat)
    (st : FeeModelState) (after : Nat) : List Rat :=
  price st.shortEMAGas st.longEMAGas
    :: edgeCandidates ema price st.params
      (if after = 0 then st.params.shortEmaBlockLength else after)
      (initialEdgeAcc price st)

/-- A concrete EMA update used by witnesses. -/
def witnessEma (prev newVal : Int) (length : Nat) : Int :=
  (prev * ((length : Int) - 1) + newVal) / (max (length : Int) 1)

/-- A concrete model curve used by witnesses. -/
def witnessPrice (shortEMA longEMA : Int) : Rat :=
  (shortEMA : Rat) / 100 + (longEMA : Rat) / 1000

/-- A concrete fee model state used by witnesses. -/
def witnessFeeState : FeeModelState :=
  { params := { shortEmaBlockLength := 3, longEmaBlockLength := 5, maxBlockGas := 100 },
    shortEMAGas := 10, longEMAGas := 20 }

/-- A resting DEX order, reduced to the fields the good-til scheduler
touches. -/
structure DexOrder where
  creator : String
  id : String
  sequence : Nat
  lockedDenom : String
  remainingLockedBalance : Int
  reserve : Int
  goodTilHeight : Option Nat
deriving DecidableEq

/-- The DEX keeper state seen by the scheduler: the order book, the DEX
liquidity locks and the reserves held by the module. -/
structure DexState where
  orders : List DexOrder
  dexLocked : String → String → Int
  reserveHeld : String → Int

/-- Modelled from the spec: the shared cancel/refund path of the DEX keeper,
whose code is not among the sampled sources (spec section 4.G/4.H and
`TestKeeper_GoodTil` fix its behaviour): drop the order from the book,
release its DEX-locked balance and refund its reserve. -/
def cancelOrder (s : DexState) (o : DexOrder) : DexState :=
  { orders := s.orders.filter (fun x => x.sequence ≠ o.sequence)
    dexLocked := update2 s.dexLocked o.creator o.lockedDenom
      (s.dexLocked o.creator o.lockedDenom - o.remainingLockedBalance)
    reserveHeld := update1 s.reserveHeld o.creator
      (s.reserveHeld o.creator - o.reserve) }

/-- Modelled from the spec: user cancellation looks the order up by
`(creator, id)` and runs the same cancel path. -/
def cancelUserOrder (s : DexState) (creator id : String) : Except Err DexState :=
  match s.orders.find? (fun o => o.creator == creator && o.id == id) with
  | Option.none => Except.error Err.notFound
  | some o => Except.ok (cancelOrder s o)

/-- Modelled from the spec and `TestKeeper_GoodTil`: an order expires at the
begin of the first block whose height strictly exceeds its good-til height
(the test keeps an order with good-til 343 through block 343 and removes it
at block 344). -/
def goodTilExpired (height : Nat) (o : DexOrder) : Bool :=
  match o.goodTilHeight with
  | Option.none => false
  | some h => h < height

/-- Modelled from the spec: the good-til scheduler at block begin cancels
every expired order through the same cancel path as user cancellation. -/
def beginBlockGoodTil (height : Nat) (s : DexState) : DexState :=
  (s.orders.filter (goodTilExpired height)).foldl cancelOrder s

/-- A concrete GTC sell order with good-til height 103, used by the C3
counterexample and witness. -/
def witnessDexOrder : DexOrder :=
  { creator := "cosmos1seller", id := "id1", sequence := 1,
    lockedDenom := "denom1", remainingLockedBalance := 10, reserve := 2,
    goodTilHeight := some 103 }

/-- A concrete book holding only `witnessDexOrder`, with its lock and reserve
accounted. -/
def witnessDexState : DexState :=
  { orders := [witnessDexOrder],
    dexLocked := fun _ _ => 10,
    reserveHeld := fun _ => 2 }

/-- A state with the duplicate symbol `tok` stored and a positive issue fee
of 5 ucore that the issuer (bank balance zero) cannot pay. -/
def witnessIssueStateC : FTState :=
  { witnessIssueStateB with issueFee := { denom := "ucore", amount := 5 } }

/-- C1: the ordered, short-circuiting checks of validate_spendable: ack and
timeout refunds succeed unconditionally; otherwise a globally frozen denom
with the freezing feature and a non-admin sender fails with GloballyFrozen
(in particular for an ibc-in transfer); otherwise an ibc-in transfer
succeeds. -/
theorem validateCoinSpendable_check_order (ctx : TransferCtx) (s : FTState)
    (addr : String) (d : Definition) (amount : Int) :
    ((ctx.purpose = TransferPurpose.ack ∨ ctx.purpose = TransferPurpose.timeout) →
      validateCoinSpendable ctx s addr d amount = Except.ok ()) ∧
    (ctx.purpose ≠ TransferPurpose.ack → ctx.purpose ≠ TransferPurpose.timeout →
      d.IsFeatureEnabled Feature.freezing = true →
      isGloballyFrozen s d.denom = true →
      d.HasAdminPrivileges addr = false →
      validateCoinSpendable ctx s addr d amount = Except.error Err.globallyFrozen) ∧
    (ctx.purpose = TransferPurpose.ibcIn →
      (d.IsFeatureEnabled Feature.freezing = false ∨
        isGloballyFrozen s d.denom = false ∨
        d.HasAdminPrivileges addr = true) →
      validateCoinSpendable ctx s addr d amount = Except.ok ()) := by
  refine ⟨?_, ?_, ?_⟩
  · rintro (h | h) <;> simp [validateCoinSpendable, h]
  · intro hack htime hfr hgf hadm
    simp [validateCoinSpendable, hack, htime, hfr, hgf, hadm]
  · intro hp hcase
    rcases hcase with h | h | h <;>
      simp [validateCoinSpendable, hp, h]

/-- Witness for C1 at concrete inputs: an ibc-in transfer of a globally
frozen denom by a non-admin fails with GloballyFrozen, while the ack refund
of the same coin succeeds. -/
theorem validateCoinSpendable_check_order_witness :
    validateCoinSpendable
      { purpose := TransferPurpose.ibcIn, triggeredBySmartContract := false,
        smartContractRecipients := [] }
      witnessFrozenState "cosmos1sender" witnessFrozenDef 5
      = Except.error Err.globallyFrozen ∧
    validateCoinSpendable
      { purpose := TransferPurpose.ack, triggeredBySmartContract := false,
        smartContractRecipients := [] }
      witnessFrozenState "cosmos1sender" witnessFrozenDef 5
      = Except.ok () := by
  constructor
  · exact (validateCoinSpendable_check_order
      { purpose := TransferPurpose.ibcIn, triggeredBySmartContract := false,
        smartContractRecipients := [] }
      witnessFrozenState "cosmos1sender" witnessFrozenDef 5).2.1
      (by decide) (by decide) (by decide) (by decide) (by decide)
  · exact (validateCoinSpendable_check_order
      { purpose := TransferPurpose.ack, triggeredBySmartContract := false,
        smartContractRecipients := [] }
      witnessFrozenState "cosmos1sender" witnessFrozenDef 5).1 (Or.inl rfl)

/-- C4: with transfer purpose none, an actor with admin privileges is exempt
from freezing, global freeze, frozen balances and the smart-contract block:
validate_spendable reduces to the DEX/bank-lock funds check and
validate_receivable always succeeds. -/
theorem admin_exemption (ctx : TransferCtx) (s : FTState) (addr : String)
    (d : Definition) (amount : Int)
    (hadm : d.HasAdminPrivileges addr = true)
    (hp : ctx.purpose = TransferPurpose.none) :
    validateCoinSpendable ctx s addr d amount
      = validateCoinIsNotLockedByDEXAndBank s addr d.denom amount ∧
    validateCoinReceivable ctx s addr d amount = Except.ok () := by
  constructor
  · cases hres : validateCoinIsNotLockedByDEXAndBank s addr d.denom amount with
    | error e => simp [validateCoinSpendable, hp, hadm, hres]
    | ok u => cases u; simp [validateCoinSpendable, hp, hadm, hres]
  · simp [validateCoinReceivable, hp, hadm]

/-- Witness for C4: the admin of a globally frozen denom with sufficient
unlocked funds can both send and receive. -/
theorem admin_exemption_witness :
    validateCoinSpendable
      { purpose := TransferPurpose.none, triggeredBySmartContract := true,
        smartContractRecipients := ["cosmos1issuer"] }
      witnessFrozenState "cosmos1issuer" witnessFrozenDef 5
      = validateCoinIsNotLockedByDEXAndBank witnessFrozenState "cosmos1issuer"
          witnessFrozenDef.denom 5 ∧
    validateCoinReceivable
      { purpose := TransferPurpose.none, triggeredBySmartContract := true,
        smartContractRecipients := ["cosmos1issuer"] }
      witnessFrozenState "cosmos1issuer" witnessFrozenDef 5
      = Except.ok () :=
  admin_exemption
    { purpose := TransferPurpose.none, triggeredBySmartContract := true,
      smartContractRecipients := ["cosmos1issuer"] }
    witnessFrozenState "cosmos1issuer" witnessFrozenDef 5 (by decide) rfl

/-- Counterexample to C2 as stated: whitelisting is enabled, the receiver is
not admin, the purpose is none and the whitelist inequality holds, yet
validate_receivable fails with Unauthorized because the
block-smart-contracts rule fires on the receiving smart contract. -/
theorem validateCoinReceivable_whitelisting_counterexample :
    witnessWLDef.IsFeatureEnabled Feature.whitelisting = true ∧
    witnessWLDef.HasAdminPrivileges "cosmos1bob" = false ∧
    witnessSCCtx.purpose = TransferPurpose.none ∧
    witnessWLState.bank "cosmos1bob" witnessWLDef.denom
      + witnessWLState.dexExpected "cosmos1bob" witnessWLDef.denom + 1
      ≤ witnessWLState.whitelisted "cosmos1bob" witnessWLDef.denom ∧
    validateCoinReceivable witnessSCCtx witnessWLState "cosmos1bob" witnessWLDef 1
      = Except.error Err.unauthorized := by
  refine ⟨by decide, by decide, rfl, by decide, by decide⟩

/-- C2 (amended): with whitelisting enabled, a non-admin receiver and purpose
none, validate_receivable fails with WhitelistedLimitExceeded exactly when
bank + dex_expected + amount exceeds the whitelisted cap, and succeeds
exactly when bank + dex_expected + amount ≤ cap and the smart-contract block
rule does not fire (feature disabled or the receiver is not a receiving
smart contract). -/
theorem validateCoinReceivable_whitelisting (ctx : TransferCtx) (s : FTState)
    (addr : String) (d : Definition) (amount : Int)
    (hwl : d.IsFeatureEnabled Feature.whitelisting = true)
    (hadm : d.HasAdminPrivileges addr = false)
    (hp : ctx.purpose = TransferPurpose.none) :
    (validateCoinReceivable ctx s addr d amount
        = Except.error Err.whitelistedLimitExceeded ↔
      s.whitelisted addr d.denom
        < s.bank addr d.denom + s.dexExpected addr d.denom + amount) ∧
    (validateCoinReceivable ctx s addr d amount = Except.ok () ↔
      (s.bank addr d.denom + s.dexExpected addr d.denom + amount
          ≤ s.whitelisted addr d.denom ∧
        (d.IsFeatureEnabled Feature.blockSmartContracts = false ∨
          IsReceivingSmartContract ctx addr = false))) := by
  by_cases hlt : s.whitelisted addr d.denom - s.bank addr d.denom
      - s.dexExpected addr d.denom < amount <;>
    rcases hb : d.IsFeatureEnabled Feature.blockSmartContracts with _ | _ <;>
      rcases hr : IsReceivingSmartContract ctx addr with _ | _ <;>
        constructor <;>
          simp [validateCoinReceivable, validateWhitelistedBalance, hp, hwl,
            hadm, hlt, hb, hr] <;>
          omega

/-- Witness for the amended C2: with no smart-contract recipient, receiving 3
into cap 10 succeeds and the two biconditionals hold concretely. -/
theorem validateCoinReceivable_whitelisting_witness :
    (validateCoinReceivable witnessPlainCtx witnessWLState "cosmos1bob"
        witnessWLDef 3 = Except.error Err.whitelistedLimitExceeded ↔
      witnessWLState.whitelisted "cosmos1bob" witnessWLDef.denom
        < witnessWLState.bank "cosmos1bob" witnessWLDef.denom
          + witnessWLState.dexExpected "cosmos1bob" witnessWLDef.denom + 3) ∧
    (validateCoinReceivable witnessPlainCtx witnessWLState "cosmos1bob"
        witnessWLDef 3 = Except.ok () ↔
      (witnessWLState.bank "cosmos1bob" witnessWLDef.denom
          + witnessWLState.dexExpected "cosmos1bob" witnessWLDef.denom + 3
          ≤ witnessWLState.whitelisted "cosmos1bob" witnessWLDef.denom ∧
        (witnessWLDef.IsFeatureEnabled Feature.blockSmartContracts = false ∨
          IsReceivingSmartContract witnessPlainCtx "cosmos1bob" = false))) :=
  validateCoinReceivable_whitelisting witnessPlainCtx witnessWLState
    "cosmos1bob" witnessWLDef 3 (by decide) (by decide) rfl

/-- C8: GetSpendableBalance never returns a negative amount; it equals
max(0, min of the not-locked and not-frozen differences) when a definition
with freezing exists, and max(0, not-locked difference) otherwise. -/
theorem GetSpendableBalance_spec (s : FTState) (addr denom : String)
    (hdex : 0 ≤ s.dexLocked addr denom) (hbl : 0 ≤ s.bankLocked addr denom) :
    GetSpendableBalance s addr denom =
      (match getDefinitionOrNil s denom with
       | some d =>
         if d.IsFeatureEnabled Feature.freezing then
           max 0 (min
             (s.bank addr denom - s.dexLocked addr denom - s.bankLocked addr denom)
             (s.bank addr denom - GetFrozenBalance s addr denom))
         else
           max 0 (s.bank addr denom - s.dexLocked addr denom - s.bankLocked addr denom)
       | Option.none =>
         max 0 (s.bank addr denom - s.dexLocked addr denom - s.bankLocked addr denom)) ∧
    0 ≤ GetSpendableBalance s addr denom := by
  have heq : GetSpendableBalance s addr denom =
      (match getDefinitionOrNil s denom with
       | some d =>
         if d.IsFeatureEnabled Feature.freezing then
           max 0 (min
             (s.bank addr denom - s.dexLocked addr denom - s.bankLocked addr denom)
             (s.bank addr denom - GetFrozenBalance s addr denom))
         else
           max 0 (s.bank addr denom - s.dexLocked addr denom - s.bankLocked addr denom)
       | Option.none =>
         max 0 (s.bank addr denom - s.dexLocked addr denom - s.bankLocked addr denom)) := by
    unfold GetSpendableBalance
    rcases hdef : getDefinitionOrNil s denom with _ | d
    · by_cases hz : s.bank addr denom = 0
      · simp only [hdef, hz, reduceIte]
        exact (max_eq_left (by omega)).symm
      · by_cases hneg : s.bank addr denom - s.dexLocked addr denom
            - s.bankLocked addr denom < 0
        · simp only [hdef, hz, hneg, reduceIte]
          exact (max_eq_left (le_of_lt hneg)).symm
        · simp only [hdef, hz, hneg, reduceIte]
          exact (max_eq_right (by omega)).symm
    · rcases hfr : d.IsFeatureEnabled Feature.freezing with _ | _
      · by_cases hz : s.bank addr denom = 0
        · simp only [hdef, hz, hfr, Bool.false_eq_true, reduceIte]
          exact (max_eq_left (by omega)).symm
        · by_cases hneg : s.bank addr denom - s.dexLocked addr denom
              - s.bankLocked addr denom < 0
          · simp only [hdef, hz, hneg, hfr, Bool.false_eq_true, reduceIte]
            exact (max_eq_left (le_of_lt hneg)).symm
          · simp only [hdef, hz, hneg, hfr, Bool.false_eq_true, reduceIte]
            exact (max_eq_right (by omega)).symm
      · by_cases hz : s.bank addr denom = 0
        · simp only [hdef, hz, hfr, reduceIte]
          exact (max_eq_left ((min_le_left _ _).trans (by omega))).symm
        · by_cases hneg : s.bank addr denom - s.dexLocked addr denom
              - s.bankLocked addr denom < 0
          · simp only [hdef, hz, hneg, hfr, reduceIte]
            exact (max_eq_left ((min_le_left _ _).trans (le_of_lt hneg))).symm
          · by_cases hfneg : s.bank addr denom - GetFrozenBalance s addr denom < 0
            · simp only [hdef, hz, hneg, hfneg, hfr, reduceIte]
              exact (max_eq_left ((min_le_right _ _).trans (le_of_lt hfneg))).symm
            · simp only [hdef, hz, hneg, hfneg, hfr, reduceIte]
              exact (max_eq_right (le_min (by omega) (by omega))).symm
  refine ⟨heq, ?_⟩
  rw [heq]
  rcases hdef : getDefinitionOrNil s denom with _ | d
  · simp only [hdef]
    exact le_max_left 0 _
  · simp only [hdef]
    split_ifs with hfr
    · exact le_max_left 0 _
    · exact le_max_left 0 _

/-- Witness for C8: spendable balance of a non-admin holder of the globally
frozen denom is zero, matching the formula. -/
theorem GetSpendableBalance_spec_witness :
    GetSpendableBalance witnessFrozenState "cosmos1holder" "sub-cosmos1issuer" =
      (match getDefinitionOrNil witnessFrozenState "sub-cosmos1issuer" with
       | some d =>
         if d.IsFeatureEnabled Feature.freezing then
           max 0 (min
             (witnessFrozenState.bank "cosmos1holder" "sub-cosmos1issuer"
               - witnessFrozenState.dexLocked "cosmos1holder" "sub-cosmos1issuer"
               - witnessFrozenState.bankLocked "cosmos1holder" "sub-cosmos1issuer")
             (witnessFrozenState.bank "cosmos1holder" "sub-cosmos1issuer"
               - GetFrozenBalance witnessFrozenState "cosmos1holder" "sub-cosmos1issuer"))
         else
           max 0 (witnessFrozenState.bank "cosmos1holder" "sub-cosmos1issuer"
             - witnessFrozenState.dexLocked "cosmos1holder" "sub-cosmos1issuer"
             - witnessFrozenState.bankLocked "cosmos1holder" "sub-cosmos1issuer")
       | Option.none =>
         max 0 (witnessFrozenState.bank "cosmos1holder" "sub-cosmos1issuer"
           - witnessFrozenState.dexLocked "cosmos1holder" "sub-cosmos1issuer"
           - witnessFrozenState.bankLocked "cosmos1holder" "sub-cosmos1issuer")) ∧
    0 ≤ GetSpendableBalance witnessFrozenState "cosmos1holder" "sub-cosmos1issuer" :=
  GetSpendableBalance_spec witnessFrozenState "cosmos1holder" "sub-cosmos1issuer"
    (by decide) (by decide)

/-- C7: ClearAdmin by the admin succeeds, leaving the stored definition with
an empty admin; the commission rate is zeroed exactly when the extension
feature is disabled; any non-admin caller gets Unauthorized (and the state is
reverted by the host). -/
theorem ClearAdmin_spec (s : FTState) (sender denom su iss : String) (d : Definition)
    (hdd : deconstructDenom denom = some (su, iss))
    (hdef : s.definitions iss su = some d) :
    (d.IsAdmin sender = true →
      ∃ s', ClearAdmin s sender denom = Except.ok s' ∧
        ∃ d', GetDefinition s' denom = Except.ok d' ∧
          d'.admin = "" ∧
          (d.IsFeatureEnabled Feature.extension = true →
            d'.sendCommissionRate = d.sendCommissionRate) ∧
          (d.IsFeatureEnabled Feature.extension = false →
            d'.sendCommissionRate = 0)) ∧
    (d.IsAdmin sender = false →
      ClearAdmin s sender denom = Except.error Err.unauthorized) := by
  have hget : GetDefinition s denom = Except.ok d := by
    simp only [GetDefinition, hdd, hdef]
  constructor
  · intro hadm
    refine ⟨SetDefinition s iss su
      { d with
        admin := ""
        sendCommissionRate :=
          if d.IsFeatureEnabled Feature.extension then d.sendCommissionRate
          else 0 }, ?_, ?_⟩
    · simp only [ClearAdmin, hget, hadm, hdd, Bool.not_true, Bool.false_eq_true,
        if_false]
    · refine ⟨{ d with
        admin := ""
        sendCommissionRate :=
          if d.IsFeatureEnabled Feature.extension then d.sendCommissionRate
          else 0 }, ?_, rfl, ?_, ?_⟩
      · simp only [GetDefinition, hdd, SetDefinition]
        simp only [true_and, and_self, if_true, reduceIte]
      · intro hx; simp [hx]
      · intro hx; simp [hx]
  · intro hadm
    simp only [ClearAdmin, hget, hadm, Bool.not_false, if_true]

/-- Witness for C7: the admin of `sub-cosmos1issuer` clears administration;
extension is disabled so the commission rate is zeroed. -/
theorem ClearAdmin_spec_witness :
    (witnessFrozenDef.IsAdmin "cosmos1issuer" = true →
      ∃ s', ClearAdmin witnessFrozenState "cosmos1issuer" "sub-cosmos1issuer"
          = Except.ok s' ∧
        ∃ d', GetDefinition s' "sub-cosmos1issuer" = Except.ok d' ∧
          d'.admin = "" ∧
          (witnessFrozenDef.IsFeatureEnabled Feature.extension = true →
            d'.sendCommissionRate = witnessFrozenDef.sendCommissionRate) ∧
          (witnessFrozenDef.IsFeatureEnabled Feature.extension = false →
            d'.sendCommissionRate = 0)) ∧
    (witnessFrozenDef.IsAdmin "cosmos1issuer" = false →
      ClearAdmin witnessFrozenState "cosmos1issuer" "sub-cosmos1issuer"
        = Except.error Err.unauthorized) :=
  ClearAdmin_spec witnessFrozenState "cosmos1issuer" "sub-cosmos1issuer"
    "sub" "cosmos1issuer" witnessFrozenDef (by decide) (by decide)

/-- C10: for an admin sender on a denom with the freezing feature,
GloballyFreeze and GloballyUnfreeze are idempotent on state and
GloballyUnfreeze after GloballyFreeze yields the unfrozen state (the original
state when the denom was not frozen). -/
theorem globalFreeze_idempotent (s : FTState) (sender denom su iss : String)
    (d : Definition)
    (hdd : deconstructDenom denom = some (su, iss))
    (hdef : s.definitions iss su = some d)
    (hfeat : d.IsFeatureEnabled Feature.freezing = true)
    (hadm : d.HasAdminPrivileges sender = true) :
    ∃ sF sU,
      GloballyFreeze s sender denom = Except.ok sF ∧
      GloballyFreeze sF sender denom = Except.ok sF ∧
      sF.globalFreeze denom = true ∧
      GloballyUnfreeze s sender denom = Except.ok sU ∧
      GloballyUnfreeze sU sender denom = Except.ok sU ∧
      sU.globalFreeze denom = false ∧
      GloballyUnfreeze sF sender denom = Except.ok sU ∧
      (s.globalFreeze denom = false → sU = s) := by
  have hget : GetDefinition s denom = Except.ok d := by
    simp only [GetDefinition, hdd, hdef]
  have hchk : d.CheckFeatureAllowed sender Feature.freezing = Except.ok () := by
    simp [Definition.CheckFeatureAllowed, hfeat, hadm]
  have hsame : ∀ b₁ b₂ : Bool, update1 (update1 s.globalFreeze denom b₁) denom b₂
      = update1 s.globalFreeze denom b₂ := by
    intro b₁ b₂
    funext x
    by_cases h : x = denom <;> simp [update1, h]
  have hgetF : ∀ b : Bool, GetDefinition (SetGlobalFreeze s denom b) denom
      = Except.ok d := by
    intro b
    simp only [GetDefinition, SetGlobalFreeze, hdd, hdef]
  refine ⟨SetGlobalFreeze s denom true, SetGlobalFreeze s denom false,
    ?_, ?_, ?_, ?_, ?_, ?_, ?_, ?_⟩
  · simp only [GloballyFreeze, hget, hchk]
  · simp only [GloballyFreeze, hgetF true, hchk]
    exact congrArg Except.ok (congrArg
      (fun g => ({ s with globalFreeze := g } : FTState)) (hsame true true))
  · simp [SetGlobalFreeze, update1]
  · simp only [GloballyUnfreeze, hget, hchk]
  · simp only [GloballyUnfreeze, hgetF false, hchk]
    exact congrArg Except.ok (congrArg
      (fun g => ({ s with globalFreeze := g } : FTState)) (hsame false false))
  · simp [SetGlobalFreeze, update1]
  · simp only [GloballyUnfreeze, hgetF true, hchk]
    exact congrArg Except.ok (congrArg
      (fun g => ({ s with globalFreeze := g } : FTState)) (hsame true false))
  · intro hnf
    have hrestore : update1 s.globalFreeze denom false = s.globalFreeze := by
      funext x
      by_cases h : x = denom
      · simp [update1, h, hnf]
      · simp [update1, h]
    exact congrArg (fun g => ({ s with globalFreeze := g } : FTState)) hrestore

/-- Witness for C10 at the concrete frozen state and its admin. -/
theorem globalFreeze_idempotent_witness :
    ∃ sF sU,
      GloballyFreeze witnessFrozenState "cosmos1issuer" "sub-cosmos1issuer"
        = Except.ok sF ∧
      GloballyFreeze sF "cosmos1issuer" "sub-cosmos1issuer" = Except.ok sF ∧
      sF.globalFreeze "sub-cosmos1issuer" = true ∧
      GloballyUnfreeze witnessFrozenState "cosmos1issuer" "sub-cosmos1issuer"
        = Except.ok sU ∧
      GloballyUnfreeze sU "cosmos1issuer" "sub-cosmos1issuer" = Except.ok sU ∧
      sU.globalFreeze "sub-cosmos1issuer" = false ∧
      GloballyUnfreeze sF "cosmos1issuer" "sub-cosmos1issuer" = Except.ok sU ∧
      (witnessFrozenState.globalFreeze "sub-cosmos1issuer" = false
        → sU = witnessFrozenState) :=
  globalFreeze_idempotent witnessFrozenState "cosmos1issuer" "sub-cosmos1issuer"
    "sub" "cosmos1issuer" witnessFrozenDef (by decide) (by decide) (by decide)
    (by decide)

/-- Every subunit validation outcome is ok or InvalidInput. -/
theorem ValidateSubunit_cases (su : String) :
    ValidateSubunit su = Except.ok () ∨
    ValidateSubunit su = Except.error Err.invalidInput := by
  cases h : su.data with
  | nil => simp [ValidateSubunit, String.toList, h]
  | cons c rest =>
    simp only [ValidateSubunit, String.toList, h]
    split_ifs <;> simp

/-- Every precision validation outcome is ok or InvalidInput. -/
theorem ValidatePrecision_cases (p : Nat) :
    ValidatePrecision p = Except.ok () ∨
    ValidatePrecision p = Except.error Err.invalidInput := by
  simp only [ValidatePrecision]
  split_ifs <;> simp

/-- Every features validation outcome is ok or InvalidInput. -/
theorem ValidateFeatures_cases (fs : List Feature) :
    ValidateFeatures fs = Except.ok () ∨
    ValidateFeatures fs = Except.error Err.invalidInput := by
  simp only [ValidateFeatures]
  split_ifs <;> simp

/-- Every burn-rate validation outcome is ok or InvalidInput. -/
theorem ValidateBurnRate_cases (r : Rat) :
    ValidateBurnRate r = Except.ok () ∨
    ValidateBurnRate r = Except.error Err.invalidInput := by
  simp only [ValidateBurnRate]
  split_ifs <;> simp

/-- Every commission-rate validation outcome is ok or InvalidInput. -/
theorem ValidateSendCommissionRate_cases (r : Rat) :
    ValidateSendCommissionRate r = Except.ok () ∨
    ValidateSendCommissionRate r = Except.error Err.invalidInput := by
  simp only [ValidateSendCommissionRate]
  split_ifs <;> simp

/-- C6: any Mint above MaxMintableAmount fails with InvalidInput for every
state — in particular before any definition lookup or feature check — and
any Issue whose initial amount exceeds the cap fails with InvalidInput. -/
theorem mint_issue_above_cap (ctx : TransferCtx) (s : FTState)
    (sender recipient : String) (coin : Coin) (settings : IssueSettings)
    (version : Nat) :
    (MaxMintableAmount < coin.amount →
      Mint ctx s sender recipient coin = Except.error Err.invalidInput) ∧
    (MaxMintableAmount < settings.initialAmount →
      IssueVersioned ctx s settings version = Except.error Err.invalidInput) := by
  constructor
  · intro hcap
    simp [Mint, hcap]
  · intro hcap
    rcases ValidateSubunit_cases settings.subunit with h1 | h1 <;>
    rcases ValidatePrecision_cases settings.precision with h2 | h2 <;>
    rcases ValidateFeatures_cases settings.features with h3 | h3 <;>
    rcases ValidateBurnRate_cases settings.burnRate with h4 | h4 <;>
    rcases ValidateSendCommissionRate_cases settings.sendCommissionRate
      with h5 | h5 <;>
      simp [IssueVersioned, h1, h2, h3, h4, h5, hcap]

/-- Witness for C6: minting or issuing one unit above the cap fails with
InvalidInput even on a state holding the definition. -/
theorem mint_issue_above_cap_witness :
    Mint witnessPlainCtx witnessFrozenState "cosmos1issuer" "cosmos1issuer"
      { denom := "sub-cosmos1issuer", amount := MaxMintableAmount + 1 }
      = Except.error Err.invalidInput ∧
    IssueVersioned witnessPlainCtx witnessFrozenState witnessIssueSettingsBig 1
      = Except.error Err.invalidInput :=
  ⟨(mint_issue_above_cap witnessPlainCtx witnessFrozenState "cosmos1issuer"
      "cosmos1issuer"
      { denom := "sub-cosmos1issuer", amount := MaxMintableAmount + 1 }
      witnessIssueSettingsBig 1).1 (by simp [MaxMintableAmount]),
   (mint_issue_above_cap witnessPlainCtx witnessFrozenState "cosmos1issuer"
      "cosmos1issuer"
      { denom := "sub-cosmos1issuer", amount := MaxMintableAmount + 1 }
      witnessIssueSettingsBig 1).2 (by simp [witnessIssueSettingsBig])⟩

/-- The fee burn never touches the symbol store. -/
theorem burnIssueFee_symbols (s : FTState) (issuer : String) (s₁ : FTState) :
    burnIssueFee s issuer = Except.ok s₁ → s₁.symbols = s.symbols := by
  intro h
  cases hc : checkIssueFeeIsLimitedToCore s with
  | error e => simp [burnIssueFee, hc] at h
  | ok u =>
    cases hv : validateCoinIsNotLockedByDEXAndBank s issuer s.issueFee.denom
        s.issueFee.amount with
    | error e => simp [burnIssueFee, hc, hv] at h
    | ok v =>
      by_cases hb : s.bank issuer s.issueFee.denom < s.issueFee.amount
      · simp [burnIssueFee, bankBurn, hc, hv, hb] at h
      · simp [burnIssueFee, bankBurn, hc, hv, hb] at h
        rw [← h]

/-- Counterexample to C9 as stated: with the normalized symbol `tok` already
stored for the issuer and a positive issue fee the issuer cannot pay, the
duplicate-symbol issuance fails with InsufficientFunds (the fee burn at
keeper.go:249 precedes the SetSymbol duplicate check at keeper.go:255), not
with InvalidInput. -/
theorem issue_duplicate_symbol_counterexample :
    witnessIssueStateC.symbols "cosmos1issuer"
      (NormalizeSymbolForKey witnessIssueSettingsOK.symbol) = true ∧
    0 < witnessIssueStateC.issueFee.amount ∧
    IssueVersioned witnessPlainCtx witnessIssueStateC witnessIssueSettingsOK 1
      = Except.error Err.insufficientFunds := by
  refine ⟨by decide, by decide, rfl⟩

/-- C9 (amended): with all scalar validations passing, Issue fails with
InvalidInput when denom metadata for the built denom is already registered,
and — provided the issue fee step succeeds (no positive fee, or the fee burn
succeeds for the issuer) — when the normalized symbol is already stored for
the issuer; in both cases the error means no definition is stored. -/
theorem issue_rejects_duplicate_identifiers (ctx : TransferCtx) (s : FTState)
    (settings : IssueSettings) (version : Nat)
    (h1 : ValidateSubunit settings.subunit = Except.ok ())
    (h2 : ValidatePrecision settings.precision = Except.ok ())
    (h3 : ValidateFeatures settings.features = Except.ok ())
    (h4 : ValidateBurnRate settings.burnRate = Except.ok ())
    (h5 : ValidateSendCommissionRate settings.sendCommissionRate = Except.ok ())
    (hcap : ¬ MaxMintableAmount < settings.initialAmount)
    (h6 : ValidateSymbol settings.symbol = Except.ok ()) :
    (s.denomMetadata (BuildDenom settings.subunit settings.issuer) = true →
      IssueVersioned ctx s settings version = Except.error Err.invalidInput) ∧
    (s.denomMetadata (BuildDenom settings.subunit settings.issuer) = false →
      (0 < s.issueFee.amount →
        ∃ s₁, burnIssueFee s settings.issuer = Except.ok s₁) →
      s.symbols settings.issuer (NormalizeSymbolForKey settings.symbol) = true →
      IssueVersioned ctx s settings version = Except.error Err.invalidInput) := by
  constructor
  · intro hmeta
    simp [IssueVersioned, h1, h2, h3, h4, h5, hcap, h6, hmeta]
  · intro hmeta hfee hsym
    by_cases hpos : 0 < s.issueFee.amount
    · obtain ⟨s₁, hs₁⟩ := hfee hpos
      have hsymeq : s₁.symbols = s.symbols :=
        burnIssueFee_symbols s settings.issuer s₁ hs₁
      simp [IssueVersioned, SetSymbol, h1, h2, h3, h4, h5, hcap, h6, hmeta,
        hpos, hs₁, hsymeq, hsym]
    · simp [IssueVersioned, SetSymbol, h1, h2, h3, h4, h5, hcap, h6, hmeta,
        hpos, hsym]

/-- Witness for the amended C9: issuing `tok` for `cosmos1issuer` fails with
InvalidInput both on a state whose denom metadata for `tok-cosmos1issuer`
exists and on a fee-free state where the symbol `TOK` (normalized `tok`) is
already stored. -/
theorem issue_rejects_duplicate_identifiers_witness :
    IssueVersioned witnessPlainCtx witnessIssueStateA witnessIssueSettingsOK 1
      = Except.error Err.invalidInput ∧
    IssueVersioned witnessPlainCtx witnessIssueStateB witnessIssueSettingsOK 1
      = Except.error Err.invalidInput :=
  ⟨(issue_rejects_duplicate_identifiers witnessPlainCtx witnessIssueStateA
      witnessIssueSettingsOK 1 (by decide) (by decide) (by decide) (by decide)
      (by decide) (by decide) (by decide)).1 (by decide),
   (issue_rejects_duplicate_identifiers witnessPlainCtx witnessIssueStateB
      witnessIssueSettingsOK 1 (by decide) (by decide) (by decide) (by decide)
      (by decide) (by decide) (by decide)).2 (by decide)
      (fun h => absurd h (by decide)) (by decide)⟩

/-- The edge-price loop computes exactly the minimum and maximum of the
running low and high of the accumulator and all per-block candidates. -/
theorem edgeIter_minmax (ema : Int → Int → Nat → Int) (price : Int → Int → Rat)
    (p : FeeModelParams) (n : Nat) :
    ∀ acc : EdgeAcc,
      ((edgeIter ema price p n acc).lowMinGasPrice
          ∈ acc.lowMinGasPrice :: edgeCandidates ema price p n acc) ∧
      ((edgeIter ema price p n acc).highMinGasPrice
          ∈ acc.highMinGasPrice :: edgeCandidates ema price p n acc) ∧
      (edgeIter ema price p n acc).lowMinGasPrice ≤ acc.lowMinGasPrice ∧
      (∀ c ∈ edgeCandidates ema price p n acc,
        (edgeIter ema price p n acc).lowMinGasPrice ≤ c) ∧
      acc.highMinGasPrice ≤ (edgeIter ema price p n acc).highMinGasPrice ∧
      (∀ c ∈ edgeCandidates ema price p n acc,
        c ≤ (edgeIter ema price p n acc).highMinGasPrice) := by
  induction n with
  | zero =>
    intro acc
    refine ⟨List.mem_cons_self _ _, List.mem_cons_self _ _, le_refl _, ?_,
      le_refl _, ?_⟩ <;> simp [edgeCandidates]
  | succ n ih =>
    intro acc
    obtain ⟨hlmem, hhmem, hlle, hlall, hhge, hhall⟩ := ih (edgeStep ema price p acc)
    have hstepl : (edgeStep ema price p acc).lowMinGasPrice
        = min acc.lowMinGasPrice
          (min (price (ema acc.maxShortEMA p.maxBlockGas p.shortEmaBlockLength)
              (ema acc.maxLongEMA p.maxBlockGas p.longEmaBlockLength))
            (price (ema acc.minShortEMA 0 p.shortEmaBlockLength)
              (ema acc.minLongEMA 0 p.longEmaBlockLength))) := rfl
    have hsteph : (edgeStep ema price p acc).highMinGasPrice
        = max acc.highMinGasPrice
          (max (price (ema acc.maxShortEMA p.maxBlockGas p.shortEmaBlockLength)
              (ema acc.maxLongEMA p.maxBlockGas p.longEmaBlockLength))
            (price (ema acc.minShortEMA 0 p.shortEmaBlockLength)
              (ema acc.minLongEMA 0 p.longEmaBlockLength))) := rfl
    have hitl : (edgeIter ema price p (Nat.succ n) acc).lowMinGasPrice
        = (edgeIter ema price p n (edgeStep ema price p acc)).lowMinGasPrice := rfl
    have hith : (edgeIter ema price p (Nat.succ n) acc).highMinGasPrice
        = (edgeIter ema price p n (edgeStep ema price p acc)).highMinGasPrice := rfl
    have hcands : edgeCandidates ema price p (Nat.succ n) acc
        = price (ema acc.maxShortEMA p.maxBlockGas p.shortEmaBlockLength)
            (ema acc.maxLongEMA p.maxBlockGas p.longEmaBlockLength)
          :: price (ema acc.minShortEMA 0 p.shortEmaBlockLength)
            (ema acc.minLongEMA 0 p.longEmaBlockLength)
          :: edgeCandidates ema price p n (edgeStep ema price p acc) := rfl
    refine ⟨?_, ?_, ?_, ?_, ?_, ?_⟩
    · rw [hitl, hcands]
      rcases List.mem_cons.mp hlmem with h | h
      · rw [h, hstepl]
        rcases min_choice acc.lowMinGasPrice
            (min (price (ema acc.maxShortEMA p.maxBlockGas p.shortEmaBlockLength)
              (ema acc.maxLongEMA p.maxBlockGas p.longEmaBlockLength))
              (price (ema acc.minShortEMA 0 p.shortEmaBlockLength)
                (ema acc.minLongEMA 0 p.longEmaBlockLength))) with h1 | h1
        · rw [h1]; exact List.mem_cons_self _ _
        · rw [h1]
          rcases min_choice (price (ema acc.maxShortEMA p.maxBlockGas p.shortEmaBlockLength)
              (ema acc.maxLongEMA p.maxBlockGas p.longEmaBlockLength))
              (price (ema acc.minShortEMA 0 p.shortEmaBlockLength)
                (ema acc.minLongEMA 0 p.longEmaBlockLength)) with h2 | h2
          · rw [h2]
            exact List.mem_cons_of_mem _ (List.mem_cons_self _ _)
          · rw [h2]
            exact List.mem_cons_of_mem _
              (List.mem_cons_of_mem _ (List.mem_cons_self _ _))
      · exact List.mem_cons_of_mem _ (List.mem_cons_of_mem _
          (List.mem_cons_of_mem _ h))
    · rw [hith, hcands]
      rcases List.mem_cons.mp hhmem with h | h
      · rw [h, hsteph]
        rcases max_choice acc.highMinGasPrice
            (max (price (ema acc.maxShortEMA p.maxBlockGas p.shortEmaBlockLength)
              (ema acc.maxLongEMA p.maxBlockGas p.longEmaBlockLength))
              (price (ema acc.minShortEMA 0 p.shortEmaBlockLength)
                (ema acc.minLongEMA 0 p.longEmaBlockLength))) with h1 | h1
        · rw [h1]; exact List.mem_cons_self _ _
        · rw [h1]
          rcases max_choice (price (ema acc.maxShortEMA p.maxBlockGas p.shortEmaBlockLength)
              (ema acc.maxLongEMA p.maxBlockGas p.longEmaBlockLength))
              (price (ema acc.minShortEMA 0 p.shortEmaBlockLength)
                (ema acc.minLongEMA 0 p.longEmaBlockLength)) with h2 | h2
          · rw [h2]
            exact List.mem_cons_of_mem _ (List.mem_cons_self _ _)
          · rw [h2]
            exact List.mem_cons_of_mem _
              (List.mem_cons_of_mem _ (List.mem_cons_self _ _))
      · exact List.mem_cons_of_mem _ (List.mem_cons_of_mem _
          (List.mem_cons_of_mem _ h))
    · rw [hitl]
      exact le_trans (le_trans hlle (le_of_eq hstepl)) (min_le_left _ _)
    · rw [hitl, hcands]
      intro c hc
      rcases List.mem_cons.mp hc with h | h
      · subst h
        exact le_trans (le_trans hlle (le_of_eq hstepl))
          (le_trans (min_le_right _ _) (min_le_left _ _))
      · rcases List.mem_cons.mp h with h2 | h2
        · subst h2
          exact le_trans (le_trans hlle (le_of_eq hstepl))
            (le_trans (min_le_right _ _) (min_le_right _ _))
        · exact hlall c h2
    · rw [hith]
      refine le_trans ?_ hhge
      rw [hsteph]
      exact le_max_left _ _
    · rw [hith, hcands]
      intro c hc
      rcases List.mem_cons.mp hc with h | h
      · subst h
        exact le_trans (le_trans (le_max_left _ _) (le_max_right _ _))
          (le_trans (le_of_eq hsteph.symm) hhge)
      · rcases List.mem_cons.mp h with h2 | h2
        · subst h2
          exact le_trans (le_trans (le_max_right _ _) (le_max_right _ _))
            (le_trans (le_of_eq hsteph.symm) hhge)
        · exact hhall c h2

/-- C5: the query errors exactly when `after` exceeds the short EMA block
length; otherwise it returns a pair (low, high) with low ≤ high where low is
the minimum and high the maximum of the candidate set: the current model
price together with the per-block prices of the max-load and zero-load
trajectories over the effective number of blocks. -/
theorem CalculateEdgeGasPriceAfterBlocks_spec (ema : Int → Int → Nat → Int)
    (price : Int → Int → Rat) (st : FeeModelState) (after : Nat) :
    ((∃ e, CalculateEdgeGasPriceAfterBlocks ema price st after = Except.error e)
      ↔ st.params.shortEmaBlockLength < after) ∧
    (after ≤ st.params.shortEmaBlockLength →
      ∃ lo hi,
        CalculateEdgeGasPriceAfterBlocks ema price st after = Except.ok (lo, hi) ∧
        lo ≤ hi ∧
        lo ∈ edgeCandidateList ema price st after ∧
        hi ∈ edgeCandidateList ema price st after ∧
        (∀ c ∈ edgeCandidateList ema price st after, lo ≤ c ∧ c ≤ hi)) := by
  constructor
  · constructor
    · rintro ⟨e, he⟩
      by_cases hlt : st.params.shortEmaBlockLength < after
      · exact hlt
      · simp [CalculateEdgeGasPriceAfterBlocks, hlt] at he
    · intro hlt
      exact ⟨Err.invalidRequest, by simp [CalculateEdgeGasPriceAfterBlocks, hlt]⟩
  · intro hle
    have hlt : ¬ st.params.shortEmaBlockLength < after := not_lt.mpr hle
    obtain ⟨hlmem, hhmem, hlle, hlall, hhge, hhall⟩ :=
      edgeIter_minmax ema price st.params
        (if after = 0 then st.params.shortEmaBlockLength else after)
        (initialEdgeAcc price st)
    refine ⟨(edgeIter ema price st.params
        (if after = 0 then st.params.shortEmaBlockLength else after)
        (initialEdgeAcc price st)).lowMinGasPrice,
      (edgeIter ema price st.params
        (if after = 0 then st.params.shortEmaBlockLength else after)
        (initialEdgeAcc price st)).highMinGasPrice, ?_, ?_, ?_, ?_, ?_⟩
    · simp [CalculateEdgeGasPriceAfterBlocks, hlt]
    · exact le_trans hlle hhge
    · exact hlmem
    · exact hhmem
    · intro c hc
      rcases List.mem_cons.mp hc with h | h
      · subst h
        exact ⟨hlle, hhge⟩
      · exact ⟨hlall c h, hhall c h⟩

/-- Witness for C5 at a concrete EMA function, model curve and state with
`after = 2` of a short EMA block length 3. -/
theorem CalculateEdgeGasPriceAfterBlocks_spec_witness :
    ∃ lo hi,
      CalculateEdgeGasPriceAfterBlocks witnessEma witnessPrice witnessFeeState 2
        = Except.ok (lo, hi) ∧
      lo ≤ hi ∧
      lo ∈ edgeCandidateList witnessEma witnessPrice witnessFeeState 2 ∧
      hi ∈ edgeCandidateList witnessEma witnessPrice witnessFeeState 2 ∧
      (∀ c ∈ edgeCandidateList witnessEma witnessPrice witnessFeeState 2,
        lo ≤ c ∧ c ≤ hi) :=
  (CalculateEdgeGasPriceAfterBlocks_spec witnessEma witnessPrice
    witnessFeeState 2).2 (by decide)

/-- An order whose sequence differs from every cancelled sequence survives
the cancel fold. -/
theorem mem_foldl_cancelOrder (L : List DexOrder) :
    ∀ (s : DexState) (o : DexOrder), o ∈ s.orders →
      (∀ x ∈ L, x.sequence ≠ o.sequence) →
      o ∈ (L.foldl cancelOrder s).orders := by
  induction L with
  | nil =>
    intro s o ho _
    simpa using ho
  | cons x xs ih =>
    intro s o ho hseq
    have hxo : o.sequence ≠ x.sequence := fun h =>
      hseq x (List.mem_cons_self _ _) h.symm
    refine ih (cancelOrder s x) o ?_ ?_
    · simp only [cancelOrder, List.mem_filter]
      exact ⟨ho, by simpa using hxo⟩
    · intro y hy
      exact hseq y (List.mem_cons_of_mem _ hy)

/-- The cancel fold never adds orders to the book. -/
theorem foldl_cancelOrder_subset (L : List DexOrder) :
    ∀ (s : DexState) (y : DexOrder),
      y ∈ (L.foldl cancelOrder s).orders → y ∈ s.orders := by
  induction L with
  | nil =>
    intro s y hy
    simpa using hy
  | cons x xs ih =>
    intro s y hy
    have := ih (cancelOrder s x) y hy
    simp only [cancelOrder, List.mem_filter] at this
    exact this.1

/-- After folding a cancel over a list containing the sequence of an order, no
order with that sequence remains in the book. -/
theorem foldl_cancelOrder_removes (L : List DexOrder) :
    ∀ (s : DexState) (x : DexOrder), x ∈ L →
      ∀ y ∈ (L.foldl cancelOrder s).orders, y.sequence ≠ x.sequence := by
  induction L with
  | nil =>
    intro s x hx
    exact absurd hx (List.not_mem_nil _)
  | cons a as ih =>
    intro s x hx y hy
    rcases List.mem_cons.mp hx with rfl | hx
    · have := foldl_cancelOrder_subset as (cancelOrder s x) y hy
      simp only [cancelOrder, List.mem_filter] at this
      simpa using this.2
    · exact ih (cancelOrder s a) x hx y hy

/-- C3 (amended): an unfilled order with good-til height H stays in the book
at the begin of every block of height at most H and is cancelled — through
the same cancel path as user cancel, with its locked balance released, its
reserve refunded and the book left empty when it was alone — at the begin of
the first block whose height exceeds H. -/
theorem goodTil_expiration (s : DexState) (o : DexOrder) (H h : Nat)
    (ho : o ∈ s.orders) (hH : o.goodTilHeight = some H)
    (huniq : ∀ x ∈ s.orders, x.sequence = o.sequence → x = o) :
    (h ≤ H → o ∈ (beginBlockGoodTil h s).orders) ∧
    (H < h → o ∉ (beginBlockGoodTil h s).orders) ∧
    (H < h → s.orders = [o] →
      beginBlockGoodTil h s = cancelOrder s o ∧
      cancelUserOrder s o.creator o.id = Except.ok (cancelOrder s o) ∧
      (beginBlockGoodTil h s).orders = [] ∧
      (beginBlockGoodTil h s).dexLocked o.creator o.lockedDenom
        = s.dexLocked o.creator o.lockedDenom - o.remainingLockedBalance ∧
      (beginBlockGoodTil h s).reserveHeld o.creator
        = s.reserveHeld o.creator - o.reserve) := by
  refine ⟨?_, ?_, ?_⟩
  · intro hle
    refine mem_foldl_cancelOrder _ s o ho ?_
    intro x hx
    have hmem := List.mem_filter.mp hx
    intro hseq
    have hxo : x = o := huniq x hmem.1 hseq
    subst hxo
    have : goodTilExpired h x = true := hmem.2
    simp only [goodTilExpired, hH, decide_eq_true_eq] at this
    omega
  · intro hlt hmem
    have hin : o ∈ s.orders.filter (goodTilExpired h) := by
      refine List.mem_filter.mpr ⟨ho, ?_⟩
      simp [goodTilExpired, hH, hlt]
    exact foldl_cancelOrder_removes _ s o hin o hmem rfl
  · intro hlt hone
    have hfil : s.orders.filter (goodTilExpired h) = [o] := by
      rw [hone]
      simp [List.filter, goodTilExpired, hH, hlt]
    have hbb : beginBlockGoodTil h s = cancelOrder s o := by
      simp only [beginBlockGoodTil, hfil, List.foldl]
    refine ⟨hbb, ?_, ?_, ?_, ?_⟩
    · simp [cancelUserOrder, hone, List.find?]
    · rw [hbb]
      simp only [cancelOrder, hone]
      simp [List.filter]
    · rw [hbb]
      simp [cancelOrder, update2]
    · rw [hbb]
      simp [cancelOrder, update1]

/-- Witness for C3: the order with good-til 103 is still in the book at
block 103 begin and is cancelled at block 104 begin with its lock released,
its reserve refunded and the book emptied. -/
theorem goodTil_expiration_witness :
    witnessDexOrder ∈ (beginBlockGoodTil 103 witnessDexState).orders ∧
    (beginBlockGoodTil 104 witnessDexState = cancelOrder witnessDexState witnessDexOrder ∧
      cancelUserOrder witnessDexState witnessDexOrder.creator witnessDexOrder.id
        = Except.ok (cancelOrder witnessDexState witnessDexOrder) ∧
      (beginBlockGoodTil 104 witnessDexState).orders = [] ∧
      (beginBlockGoodTil 104 witnessDexState).dexLocked witnessDexOrder.creator
          witnessDexOrder.lockedDenom
        = witnessDexState.dexLocked witnessDexOrder.creator witnessDexOrder.lockedDenom
          - witnessDexOrder.remainingLockedBalance ∧
      (beginBlockGoodTil 104 witnessDexState).reserveHeld witnessDexOrder.creator
        = witnessDexState.reserveHeld witnessDexOrder.creator
          - witnessDexOrder.reserve) :=
  ⟨(goodTil_expiration witnessDexState witnessDexOrder 103 103 (by decide)
      (by decide) (by decide)).1 (by decide),
   (goodTil_expiration witnessDexState witnessDexOrder 103 104 (by decide)
      (by decide) (by decide)).2.2 (by decide) (by decide)⟩

/-- Counterexample to C3 as stated: block 103 is the first block whose
height satisfies `good_til.block_height ≤ current height`, yet the scheduler
does not cancel the order there — it is kept through block H = 103 and only
cancelled at block 104. -/
theorem goodTil_counterexample :
    (103 : Nat) ≤ 103 ∧
    witnessDexOrder.goodTilHeight = some 103 ∧
    witnessDexOrder ∈ (beginBlockGoodTil 103 witnessDexState).orders := by
  refine ⟨by decide, by decide, by decide⟩
